import Mathlib

/-!
# Lottery protocol (`protocol/protocol.go`)

A shallow embedding of the three handlers of `LotteryProtocol`
(`Start`, `HandleAnnounce`, `HandleReply`) and of a round over a rooted
tree, followed by the properties proved about them.

Conventions of the embedding:

* Go `int` is `Int`; the handlers only compare and copy numbers, no
  arithmetic is performed on them.
* `rand.Intn(100)` is an input of the handler (`draw`): the value the
  call returns. That the call takes place is recorded as an event.
* The calls into onet (`SendToChildren`, `SendTo`, `Done`) and the
  write to the `Ticket` channel are recorded, in program order, in an
  event trace. The error a send returns is a field of the instance.
* The write to the unbuffered `Ticket` channel is taken to complete: a
  reader is waiting, as in the test of the package.
* Log statements are not modelled.
-/

namespace Lottery

/-! ## Messages -/

/-- Modelled from the spec: the `Announce` message type is declared in a
file of the package that is not part of the sources at hand. The spec gives
it one field, a string, which the handlers read as `Message`. -/
structure Announce where
  Message : String
  deriving DecidableEq, Repr

/-- Modelled from the spec: the `Reply` message type is declared in a file
of the package that is not part of the sources at hand. The spec gives it a
candidate number and an owner id, both integers; the handler reads them as
`LotteryNumber` and `OwnerID` and builds it positionally in that order. -/
structure Reply where
  LotteryNumber : Int
  OwnerID : Int
  deriving DecidableEq, Repr

/-- Modelled from the spec: `StructAnnounce` is what the router hands to
`HandleAnnounce`: the sending tree node (here its roster index) together
with the `Announce` payload. -/
structure StructAnnounce where
  TreeNode : Int
  Announce : Announce
  deriving DecidableEq, Repr

/-- Modelled from the spec: `StructReply` is what the router hands to
`HandleReply` for each child: the sending tree node (here its roster index)
together with the `Reply` payload. -/
structure StructReply where
  TreeNode : Int
  Reply : Reply
  deriving DecidableEq, Repr

/-- The promoted field `c.LotteryNumber` of the embedded `Reply`. -/
def StructReply.LotteryNumber (c : StructReply) : Int := c.Reply.LotteryNumber

/-- The promoted field `c.OwnerID` of the embedded `Reply`. -/
def StructReply.OwnerID (c : StructReply) : Int := c.Reply.OwnerID

/-- The type `LotteryTicket`: a number and the id of its original owner. -/
structure LotteryTicket where
  Number : Int
  OwnerID : Int
  deriving DecidableEq, Repr

/-! ## The node instance and its effects -/

/-- What a handler reads from the embedded `*onet.TreeNodeInstance`:
the roster index of its tree node, its parent (absent at the root), its
children, and the errors its two send operations return (`none` for
`nil`). Tree nodes are referred to by roster index. -/
structure TreeNodeInstance where
  RosterIndex : Int
  Parent : Option Int
  Children : List Int
  SendToResult : Option String
  SendToChildrenResult : Option String
  deriving DecidableEq, Repr

/-- The onet predicate `IsRoot`: the tree node has no parent. -/
def TreeNodeInstance.IsRoot (p : TreeNodeInstance) : Bool := p.Parent.isNone

/-- The onet predicate `IsLeaf`: the tree node has no children. -/
def TreeNodeInstance.IsLeaf (p : TreeNodeInstance) : Bool := p.Children.isEmpty

/-- The observable actions of a handler. -/
inductive Event where
  /-- A call of `rand.Intn(100)` that returned `n`. -/
  | RandIntn (n : Int)
  /-- A call `p.SendToChildren(&a)`. -/
  | SendToChildren (a : Announce)
  /-- A call `p.SendTo(dest, &r)`. -/
  | SendTo (dest : Int) (r : Reply)
  /-- A write `p.Ticket <- t`. -/
  | Ticket (t : LotteryTicket)
  /-- A call `p.Done()`. -/
  | Done
  deriving DecidableEq, Repr

/-- The result of running a handler: its events in program order and the
error it returns (`none` for `nil`). -/
structure Outcome where
  events : List Event
  err : Option String
  deriving DecidableEq, Repr

/-! ## The handlers -/

/-- The body of the loop of `HandleReply`: the held pair
`(ownNumber, ownID)` is replaced by the reply's pair when the reply's
number is strictly greater. -/
def loopBody (own : Int × Int) (c : StructReply) : Int × Int :=
  if c.LotteryNumber > own.1 then (c.LotteryNumber, c.OwnerID) else own

/-- The loop `for _, c := range reply` of `HandleReply`, started from the
node's own draw and roster index. -/
def loop (ownNumber ownID : Int) (reply : List StructReply) : Int × Int :=
  reply.foldl loopBody (ownNumber, ownID)

/-- The handler `HandleReply`. The deferred `p.Done()` runs when the
function returns, that is after the send to the parent or the write to the
channel. -/
def HandleReply (p : TreeNodeInstance) (draw : Int) (reply : List StructReply) : Outcome :=
  let own := loop draw p.RosterIndex reply
  match p.Parent with
  | some parent =>
    -- `!p.IsRoot()`: `return p.SendTo(p.Parent(), &Reply{ownNumber, ownID})`
    { events := [Event.RandIntn draw, Event.SendTo parent ⟨own.1, own.2⟩, Event.Done],
      err := p.SendToResult }
  | none =>
    -- root: `p.Ticket <- LotteryTicket{ownNumber, ownID}; return nil`
    { events := [Event.RandIntn draw, Event.Ticket ⟨own.1, own.2⟩, Event.Done],
      err := none }

/-- The handler `HandleAnnounce`: an inner node forwards the announce to
its children, a leaf calls `HandleReply(nil)`; both results are dropped and
`nil` is returned. -/
def HandleAnnounce (p : TreeNodeInstance) (draw : Int) (msg : StructAnnounce) : Outcome :=
  if !p.IsLeaf then
    -- `p.SendToChildren(&msg.Announce)`, its result is not looked at
    let _ := p.SendToChildrenResult
    { events := [Event.SendToChildren msg.Announce], err := none }
  else
    -- `p.HandleReply(nil)`, its result is not looked at
    let r := HandleReply p draw []
    let _ := r.err
    { events := r.events, err := none }

/-- The method `Start`: a local call of `HandleAnnounce` on a fixed message
carrying the node's own tree node. -/
def Start (p : TreeNodeInstance) (draw : Int) : Outcome :=
  HandleAnnounce p draw ⟨p.RosterIndex, ⟨"cothority rulez!"⟩⟩

/-! ## A round over a tree -/

/-- A rooted tree of nodes, each with the value its `rand.Intn(100)` call
returns in the round and its roster index. The children are in the order
in which their replies are handed to the parent. -/
inductive Tree where
  | node (draw : Int) (id : Int) (children : List Tree) : Tree
  deriving Repr

/-- The draw of the node at the top of a tree. -/
def Tree.draw : Tree → Int
  | .node d _ _ => d

/-- The roster index of the node at the top of a tree. -/
def Tree.id : Tree → Int
  | .node _ i _ => i

/-- The children of the node at the top of a tree. -/
def Tree.children : Tree → List Tree
  | .node _ _ cs => cs

/-- The reply a node sent to its parent, as the router hands it to the
parent: the first `SendTo` of the trace, tagged with the sender. -/
def delivered (sender : Int) : List Event → Option StructReply
  | [] => none
  | Event.SendTo _ r :: _ => some ⟨sender, r⟩
  | _ :: es => delivered sender es

/-- The ticket written to the channel: the first `Ticket` of the trace. -/
def published : List Event → Option LotteryTicket
  | [] => none
  | Event.Ticket t :: _ => some t
  | _ :: es => published es

mutual
/-- The run of `HandleReply` at the top node of a tree in a round: the
router calls it once, with the replies of all children, in order; it is
not called when a child sent no reply. -/
def Tree.run (parent : Option Int) : Tree → Option Outcome
  | .node d i cs =>
    match collect i cs with
    | some reply =>
      some (HandleReply
        { RosterIndex := i, Parent := parent, Children := cs.map Tree.id,
          SendToResult := none, SendToChildrenResult := none } d reply)
    | none => none
/-- The replies the children `cs` of the node `parent` send to it. -/
def collect (parent : Int) : List Tree → Option (List StructReply)
  | [] => some []
  | c :: cs =>
    match Tree.run (some parent) c with
    | some o =>
      match delivered c.id o.events, collect parent cs with
      | some r, some rs => some (r :: rs)
      | _, _ => none
    | none => none
end

/-- The ticket the root of the tree publishes in a round. -/
def round (t : Tree) : Option LotteryTicket :=
  match t.run none with
  | some o => published o.events
  | none => none

/-- The reply a non-root node `v` with parent `parent` sends upwards in a
round. -/
def sent (parent : Int) (v : Tree) : Option Reply :=
  match v.run (some parent) with
  | some o => (delivered v.id o.events).map StructReply.Reply
  | none => none

/-- The pair a run of `HandleReply` emits, to the parent or to the channel:
the contents of the first `SendTo` or `Ticket` of the trace. -/
def emitted : List Event → Option (Int × Int)
  | [] => none
  | Event.SendTo _ r :: _ => some (r.LotteryNumber, r.OwnerID)
  | Event.Ticket t :: _ => some (t.Number, t.OwnerID)
  | _ :: es => emitted es

/-! ## Vocabulary of the properties -/

mutual
/-- The nodes of a tree as pairs `(draw, id)`, in pre-order: a node before
its children, the children in order. -/
def Tree.nodes : Tree → List (Int × Int)
  | .node d i cs => (d, i) :: nodesList cs
/-- The nodes of a list of trees, tree after tree. -/
def nodesList : List Tree → List (Int × Int)
  | [] => []
  | c :: cs => c.nodes ++ nodesList cs
end

mutual
/-- The non-root nodes of a tree, each as the pair of its parent's id and
the subtree rooted at it. -/
def Tree.edges : Tree → List (Int × Tree)
  | .node _ i cs => edgesList i cs
/-- The non-root nodes below the children `cs` of the node `parent`, the
children included. -/
def edgesList (parent : Int) : List Tree → List (Int × Tree)
  | [] => []
  | c :: cs => (parent, c) :: (c.edges ++ edgesList parent cs)
end

/-- `topDraw ns n`: no node of `ns` has a draw greater than that of `n`, so
`n` holds the maximum of the draws of `ns` when it is one of them. -/
def topDraw (ns : List (Int × Int)) (n : Int × Int) : Bool :=
  ns.all (fun m => decide (m.1 ≤ n.1))

/-- `topReply reply c`: no reply of the list has a number greater than that
of `c`, so `c` carries the maximum of the list when it is one of them. -/
def topReply (reply : List StructReply) (c : StructReply) : Bool :=
  reply.all (fun c' => decide (c'.LotteryNumber ≤ c.LotteryNumber))

/-- The number and owner of a reply as a pair. -/
def pairOf (c : StructReply) : Int × Int := (c.LotteryNumber, c.OwnerID)

/-- `Held P a`: the pair `a` is the first entry of `P` carrying its number,
and no entry of `P` carries a greater number. -/
def Held (P : List (Int × Int)) (a : Int × Int) : Prop :=
  P.find? (fun n => decide (n.1 = a.1)) = some a ∧ ∀ n ∈ P, n.1 ≤ a.1

mutual
/-- The pair the top node of a tree emits in a round, computed directly. -/
def Tree.best : Tree → Int × Int
  | .node d i cs => loop d i (bestList cs)
/-- The replies the children `cs` hand to their parent, computed directly. -/
def bestList : List Tree → List StructReply
  | [] => []
  | c :: cs => ⟨c.id, ⟨c.best.1, c.best.2⟩⟩ :: bestList cs
end

/-- The event is a `SendTo`. -/
def Event.isSendTo : Event → Bool
  | Event.SendTo _ _ => true
  | _ => false

/-- The event is a `SendToChildren`. -/
def Event.isSendToChildren : Event → Bool
  | Event.SendToChildren _ => true
  | _ => false

/-- The event is a write to the `Ticket` channel. -/
def Event.isTicket : Event → Bool
  | Event.Ticket _ => true
  | _ => false

/-! ## The reduction loop -/

theorem held_single (a : Int × Int) : Held [a] a := by
  simp [Held]

theorem Held.mem {P : List (Int × Int)} {a : Int × Int} (h : Held P a) : a ∈ P :=
  List.mem_of_find?_eq_some h.1

theorem held_step {P Q : List (Int × Int)} {a b : Int × Int}
    (hP : Held P a) (hQ : Held Q b) :
    Held (P ++ Q) (if b.1 > a.1 then b else a) := by
  obtain ⟨hPf, hPb⟩ := hP
  obtain ⟨hQf, hQb⟩ := hQ
  by_cases hgt : b.1 > a.1
  · simp only [hgt, if_true]
    refine ⟨?_, ?_⟩
    · have hnone : P.find? (fun n => decide (n.1 = b.1)) = none := by
        rw [List.find?_eq_none]
        intro x hx
        have := hPb x hx
        simp only [decide_eq_true_eq]
        omega
      rw [List.find?_append, hnone, hQf]; rfl
    · intro n hn
      rcases List.mem_append.1 hn with h | h
      · have := hPb n h; omega
      · exact hQb n h
  · simp only [hgt, if_false]
    refine ⟨?_, ?_⟩
    · rw [List.find?_append, hPf]; rfl
    · intro n hn
      rcases List.mem_append.1 hn with h | h
      · exact hPb n h
      · have := hQb n h; omega

theorem loopBody_eq (a : Int × Int) (c : StructReply) :
    loopBody a c = if (pairOf c).1 > a.1 then pairOf c else a := rfl

theorem foldl_held (l : List StructReply) :
    ∀ (P : List (Int × Int)) (a : Int × Int), Held P a →
      Held (P ++ l.map pairOf) (l.foldl loopBody a) := by
  induction l with
  | nil => intro P a h; simpa using h
  | cons c l ih =>
    intro P a h
    have h1 := held_step h (held_single (pairOf c))
    have h2 := ih (P ++ [pairOf c]) _ h1
    simpa [loopBody_eq] using h2

theorem loop_held (d i : Int) (l : List StructReply) :
    Held ((d, i) :: l.map pairOf) (loop d i l) := by
  have := foldl_held l [(d, i)] (d, i) (held_single _)
  simpa [loop] using this

/-! ## The round computes `Tree.best` -/

theorem delivered_HandleReply (s parent : Int) (p : TreeNodeInstance) (d : Int)
    (l : List StructReply) (hp : p.Parent = some parent) :
    delivered s (HandleReply p d l).events
      = some ⟨s, ⟨(loop d p.RosterIndex l).1, (loop d p.RosterIndex l).2⟩⟩ := by
  simp [HandleReply, hp, delivered]

theorem published_HandleReply (p : TreeNodeInstance) (d : Int)
    (l : List StructReply) (hp : p.Parent = none) :
    published (HandleReply p d l).events
      = some ⟨(loop d p.RosterIndex l).1, (loop d p.RosterIndex l).2⟩ := by
  simp [HandleReply, hp, published]

mutual
theorem run_eq : ∀ (parent : Option Int) (t : Tree),
    t.run parent = some (HandleReply
      { RosterIndex := t.id, Parent := parent, Children := t.children.map Tree.id,
        SendToResult := none, SendToChildrenResult := none } t.draw (bestList t.children))
  | parent, .node d i cs => by
    simp only [Tree.run, collect_eq i cs, Tree.id, Tree.draw, Tree.children]
theorem collect_eq : ∀ (parent : Int) (cs : List Tree), collect parent cs = some (bestList cs)
  | _, [] => by simp [collect, bestList]
  | parent, c :: cs => by
    have hc := run_eq (some parent) c
    have hcs := collect_eq parent cs
    cases c with
    | node d i ds =>
      simp only [collect, hc, hcs, bestList, Tree.best, Tree.id, Tree.draw, Tree.children]
      rw [delivered_HandleReply i parent _ _ _ rfl]
end

theorem round_eq (t : Tree) : round t = some ⟨t.best.1, t.best.2⟩ := by
  cases t with
  | node d i cs =>
    simp only [round, run_eq none, Tree.best, Tree.id, Tree.draw, Tree.children]
    rw [published_HandleReply _ _ _ rfl]

theorem sent_eq (parent : Int) (v : Tree) : sent parent v = some ⟨v.best.1, v.best.2⟩ := by
  cases v with
  | node d i cs =>
    simp only [sent, run_eq (some parent), Tree.best, Tree.id, Tree.draw, Tree.children]
    rw [delivered_HandleReply i parent _ _ _ rfl]
    rfl

/-- The replies a node's handler is run on in a round are the replies its
children send, in order. -/
theorem collect_sent (parent : Int) (cs : List Tree) :
    ∃ reply, collect parent cs = some reply ∧
      reply.map some = cs.map (fun c => (sent parent c).map (StructReply.mk c.id)) := by
  refine ⟨bestList cs, collect_eq parent cs, ?_⟩
  induction cs with
  | nil => simp [bestList]
  | cons c cs ih => simp [bestList, sent_eq, ih]

mutual
theorem best_held : ∀ t : Tree, Held t.nodes t.best
  | .node d i cs => by
    have h := bestList_held cs [(d, i)] (d, i) (held_single _)
    simpa [Tree.nodes, Tree.best, loop] using h
theorem bestList_held : ∀ (cs : List Tree) (P : List (Int × Int)) (a : Int × Int),
    Held P a → Held (P ++ nodesList cs) ((bestList cs).foldl loopBody a)
  | [], P, a, h => by simpa [nodesList, bestList] using h
  | c :: cs, P, a, h => by
    have hc := best_held c
    have h1 := held_step h hc
    have h2 := bestList_held cs (P ++ c.nodes) _ h1
    simp only [nodesList, bestList, List.foldl_cons, ← List.append_assoc]
    exact h2
end

theorem emitted_HandleReply (p : TreeNodeInstance) (d : Int) (l : List StructReply) :
    emitted (HandleReply p d l).events = some (loop d p.RosterIndex l) := by
  unfold HandleReply
  cases p.Parent <;> simp [emitted]

theorem find?_agree {α : Type} (p q : α → Bool) :
    ∀ l : List α, (∀ x ∈ l, p x = q x) → l.find? p = l.find? q := by
  intro l
  induction l with
  | nil => intro _; rfl
  | cons a l ih =>
    intro h
    have ha := h a (List.mem_cons_self a l)
    have hl := ih (fun x hx => h x (List.mem_cons_of_mem a hx))
    simp only [List.find?_cons, ha, hl]

theorem find?_of_filter_single {α : Type} (p : α → Bool) (m : α) :
    ∀ l : List α, l.filter p = [m] → l.find? p = some m := by
  intro l
  induction l with
  | nil => intro h; simp at h
  | cons a l ih =>
    intro h
    by_cases ha : p a = true
    · rw [List.filter_cons_of_pos ha] at h
      rw [List.find?_cons_of_pos l ha]
      exact congrArg some (List.cons.inj h).1
    · rw [List.filter_cons_of_neg ha] at h
      rw [List.find?_cons_of_neg l ha]
      exact ih h

/-- In a list with a held pair, the entries carrying the greatest number are
those carrying the number of the held pair. -/
theorem Held.topDraw_iff {P : List (Int × Int)} {a : Int × Int} (h : Held P a) :
    ∀ x ∈ P, topDraw P x = decide (x.1 = a.1) := by
  intro x hx
  have hxa := h.2 x hx
  by_cases e : x.1 = a.1
  · have : topDraw P x = true := by
      simp only [topDraw, List.all_eq_true, decide_eq_true_eq]
      intro m hm
      have := h.2 m hm
      omega
    simp [this, e]
  · have : topDraw P x = false := by
      rw [Bool.eq_false_iff]
      intro ht
      simp only [topDraw, List.all_eq_true, decide_eq_true_eq] at ht
      have := ht a h.mem
      omega
    simp [this, e]

theorem Held.find?_topDraw {P : List (Int × Int)} {a : Int × Int} (h : Held P a) :
    P.find? (topDraw P) = some a := by
  rw [find?_agree _ _ P h.topDraw_iff]
  exact h.1

mutual
theorem edges_nodes : ∀ (t : Tree) (e : Int × Tree), e ∈ t.edges →
    ∀ n ∈ e.2.nodes, n ∈ t.nodes
  | .node d i cs, e, he, n, hn => by
    simp only [Tree.edges] at he
    simp only [Tree.nodes]
    exact List.mem_cons_of_mem _ (edgesList_nodes i cs e he n hn)
theorem edgesList_nodes : ∀ (parent : Int) (cs : List Tree) (e : Int × Tree),
    e ∈ edgesList parent cs → ∀ n ∈ e.2.nodes, n ∈ nodesList cs
  | _, [], e, he, _, _ => by simp [edgesList] at he
  | parent, c :: cs, e, he, n, hn => by
    simp only [edgesList, List.mem_cons, List.mem_append] at he
    simp only [nodesList, List.mem_append]
    rcases he with h | h | h
    · subst h
      exact Or.inl hn
    · exact Or.inl (edges_nodes c e h n hn)
    · exact Or.inr (edgesList_nodes parent cs e h n hn)
end

/-! ## Properties of a round -/

/-- C1: in a round over any tree, the root publishes a ticket, and its
`Number` is the maximum of the draws of all nodes of the tree: it is the
draw of some node and no node drew more. -/
theorem C1_ticket_number_is_max (t : Tree) :
    ∃ tk, round t = some tk ∧ (∃ n ∈ t.nodes, n.1 = tk.Number) ∧
      ∀ n ∈ t.nodes, n.1 ≤ tk.Number := by
  refine ⟨⟨t.best.1, t.best.2⟩, round_eq t, ⟨t.best, (best_held t).mem, rfl⟩, ?_⟩
  exact (best_held t).2

/-- C2: in a round over any tree (with distinct identities or not), the
`OwnerID` of the root's ticket is the id of the first node in pre-order
whose draw is the maximum of all draws; when exactly one node `m` holds the
maximum, the `OwnerID` is the id of `m`. -/
theorem C2_ticket_owner_is_first_max (t : Tree) :
    ∃ tk n, round t = some tk ∧ t.nodes.find? (topDraw t.nodes) = some n ∧
      tk.OwnerID = n.2 ∧
      ∀ m, t.nodes.filter (topDraw t.nodes) = [m] → tk.OwnerID = m.2 := by
  have hf := (best_held t).find?_topDraw
  refine ⟨⟨t.best.1, t.best.2⟩, t.best, round_eq t, hf, rfl, ?_⟩
  intro m hm
  have := find?_of_filter_single _ m _ hm
  rw [hf] at this
  exact congrArg Prod.snd (Option.some.inj this)

theorem C2_ticket_owner_is_first_max_witness :
    ∃ tk, round (.node 3 0 [.node 9 1 [], .node 7 2 [.node 1 3 []]]) = some tk ∧
      tk.OwnerID = 1 :=
  let ⟨tk, _, h1, _, _, h4⟩ :=
    C2_ticket_owner_is_first_max (.node 3 0 [.node 9 1 [], .node 7 2 [.node 1 3 []]])
  ⟨tk, h1, h4 (9, 1) (by decide)⟩

/-- C8: in a round over any tree, the `LotteryNumber` of the `Reply` a
non-root node `v` sends to its parent is at least the draw of every node of
the subtree rooted at `v`, `v` included. -/
theorem C8_reply_dominates_subtree (t : Tree) (e : Int × Tree) (_ : e ∈ t.edges) :
    ∃ r, sent e.1 e.2 = some r ∧ (∀ n ∈ e.2.nodes, n.1 ≤ r.LotteryNumber) ∧
      e.2.draw ≤ r.LotteryNumber := by
  have hH := best_held e.2
  have hself : (e.2.draw, e.2.id) ∈ e.2.nodes := by
    cases e.2 with
    | node d i cs => simp [Tree.nodes, Tree.draw, Tree.id]
  exact ⟨⟨e.2.best.1, e.2.best.2⟩, sent_eq e.1 e.2, hH.2, hH.2 _ hself⟩

theorem C8_reply_dominates_subtree_witness :
    ∃ r, sent 0 (.node 7 2 [.node 1 3 []]) = some r ∧
      (∀ n ∈ (Tree.node 7 2 [.node 1 3 []]).nodes, n.1 ≤ r.LotteryNumber) ∧
        (Tree.node 7 2 [.node 1 3 []]).draw ≤ r.LotteryNumber :=
  C8_reply_dominates_subtree (.node 3 0 [.node 9 1 [], .node 7 2 [.node 1 3 []]])
    (0, .node 7 2 [.node 1 3 []]) (by simp [Tree.edges, edgesList])

/-! ## Properties of one call of `HandleReply` -/

/-- When some reply exceeds the own draw, the loop ends on the first reply
that carries the greatest number of the list. -/
theorem loop_of_exceeded (d i : Int) (l : List StructReply)
    (h : ∃ c ∈ l, c.LotteryNumber > d) :
    ∃ c, l.find? (topReply l) = some c ∧ loop d i l = pairOf c := by
  obtain ⟨c0, hc0, hgt⟩ := h
  have hH := loop_held d i l
  have hb : (pairOf c0).1 ≤ (loop d i l).1 :=
    hH.2 _ (List.mem_cons_of_mem _ (List.mem_map_of_mem pairOf hc0))
  have hne : ¬ (d = (loop d i l).1) := by
    simp only [pairOf] at hb
    omega
  have hf := hH.1
  rw [List.find?_cons_of_neg _ (by simpa using hne), List.find?_map] at hf
  cases hfc : l.find? ((fun n : Int × Int => decide (n.1 = (loop d i l).1)) ∘ pairOf) with
  | none => rw [hfc] at hf; simp at hf
  | some c =>
    rw [hfc] at hf
    have hpc : pairOf c = loop d i l := by simpa using hf
    refine ⟨c, ?_, hpc.symm⟩
    rw [← hfc]
    apply find?_agree
    intro x hx
    have hx1 := hH.2 _ (List.mem_cons_of_mem _ (List.mem_map_of_mem pairOf hx))
    have hc1 : c ∈ l := List.mem_of_find?_eq_some hfc
    simp only [Function.comp_apply]
    by_cases e : (pairOf x).1 = (loop d i l).1
    · have : topReply l x = true := by
        simp only [topReply, List.all_eq_true, decide_eq_true_eq]
        intro m hm
        have := hH.2 _ (List.mem_cons_of_mem _ (List.mem_map_of_mem pairOf hm))
        simp only [pairOf] at this e
        omega
      simp [this, e]
    · have : topReply l x = false := by
        rw [Bool.eq_false_iff]
        intro ht
        simp only [topReply, List.all_eq_true, decide_eq_true_eq] at ht
        have h1 := ht c hc1
        have h2 : c.LotteryNumber = (loop d i l).1 := congrArg Prod.fst hpc
        simp only [pairOf] at hx1 e
        omega
      simp [this, e]

/-- When no reply exceeds the own draw, the loop ends on the own pair. -/
theorem loop_of_not_exceeded (d i : Int) (l : List StructReply)
    (h : ∀ c ∈ l, ¬ c.LotteryNumber > d) : loop d i l = (d, i) := by
  have hH := loop_held d i l
  have h1 : d ≤ (loop d i l).1 := hH.2 (d, i) (List.mem_cons_self _ _)
  have h2 : (loop d i l).1 ≤ d := by
    rcases List.mem_cons.1 hH.mem with e | hm
    · rw [e]
    · obtain ⟨c, hc, e⟩ := List.mem_map.1 hm
      have := h c hc
      rw [← e]
      simp only [pairOf]
      omega
  have hf := hH.1
  rw [List.find?_cons_of_pos _ (by simp; omega)] at hf
  exact (Option.some.inj hf).symm

/-- C3: one call of `HandleReply` with own draw `d` and own identity
`p.RosterIndex`: when no reply has a number strictly greater than `d`, the
emitted pair is `(d, p.RosterIndex)`; otherwise it is the number and owner
of the earliest reply of the list that carries the maximum of the list. -/
theorem C3_emitted_pair (p : TreeNodeInstance) (d : Int) (reply : List StructReply) :
    ((∀ c ∈ reply, ¬ c.LotteryNumber > d) →
      emitted (HandleReply p d reply).events = some (d, p.RosterIndex)) ∧
    ((∃ c ∈ reply, c.LotteryNumber > d) →
      ∃ c, reply.find? (topReply reply) = some c ∧
        emitted (HandleReply p d reply).events = some (c.LotteryNumber, c.OwnerID)) := by
  rw [emitted_HandleReply]
  refine ⟨fun h => ?_, fun h => ?_⟩
  · rw [loop_of_not_exceeded d _ reply h]
  · obtain ⟨c, hc, e⟩ := loop_of_exceeded d p.RosterIndex reply h
    exact ⟨c, hc, by rw [e]; rfl⟩

theorem C3_emitted_pair_witness :
    emitted (HandleReply ⟨0, some 9, [1, 2], none, none⟩ 7
        [⟨1, ⟨7, 1⟩⟩, ⟨2, ⟨5, 2⟩⟩]).events = some (7, 0) ∧
    ∃ c, [(⟨1, ⟨5, 1⟩⟩ : StructReply), ⟨2, ⟨8, 2⟩⟩, ⟨3, ⟨8, 3⟩⟩].find?
          (topReply [⟨1, ⟨5, 1⟩⟩, ⟨2, ⟨8, 2⟩⟩, ⟨3, ⟨8, 3⟩⟩]) = some c ∧
      emitted (HandleReply ⟨0, none, [1, 2, 3], none, none⟩ 3
        [⟨1, ⟨5, 1⟩⟩, ⟨2, ⟨8, 2⟩⟩, ⟨3, ⟨8, 3⟩⟩]).events
        = some (c.LotteryNumber, c.OwnerID) :=
  ⟨(C3_emitted_pair ⟨0, some 9, [1, 2], none, none⟩ 7 [⟨1, ⟨7, 1⟩⟩, ⟨2, ⟨5, 2⟩⟩]).1
      (by decide),
   (C3_emitted_pair ⟨0, none, [1, 2, 3], none, none⟩ 3
      [⟨1, ⟨5, 1⟩⟩, ⟨2, ⟨8, 2⟩⟩, ⟨3, ⟨8, 3⟩⟩]).2 ⟨⟨2, ⟨8, 2⟩⟩, by decide⟩⟩

/-- C4 as stated fails: two replies that tie above the own draw are
emitted in the order they are processed, so a permutation of the list
changes the emitted owner. -/
theorem C4_order_changes_owner :
    ¬ ∀ (p : TreeNodeInstance) (d : Int) (l1 l2 : List StructReply), l1.Perm l2 →
        emitted (HandleReply p d l1).events = emitted (HandleReply p d l2).events := by
  intro h
  have h1 := h ⟨0, none, [1, 2], none, none⟩ 3
    [⟨1, ⟨7, 1⟩⟩, ⟨2, ⟨7, 2⟩⟩] [⟨2, ⟨7, 2⟩⟩, ⟨1, ⟨7, 1⟩⟩] (List.Perm.swap _ _ _)
  exact absurd h1 (by decide)

/-- C4, amended: for every permutation of the incoming replies the emitted
number is the same; the emitted owner is the same as well whenever all
replies that carry the maximum of the list, when it exceeds the own draw,
name the same owner. Under each ordering the emitted owner is that of the
earliest reply, in that ordering, carrying the maximum of the list when
some reply exceeds the own draw, and the node's own identity otherwise. -/
theorem C4_number_order_independent (p : TreeNodeInstance) (d : Int)
    (l1 l2 : List StructReply) (h : l1.Perm l2) :
    ∃ n o1 o2, emitted (HandleReply p d l1).events = some (n, o1) ∧
      emitted (HandleReply p d l2).events = some (n, o2) ∧
      ((∀ c ∈ l1, ∀ c' ∈ l1, c.LotteryNumber > d → topReply l1 c = true →
          c'.LotteryNumber = c.LotteryNumber → c'.OwnerID = c.OwnerID) → o1 = o2) ∧
      ((∃ c ∈ l1, c.LotteryNumber > d) →
        ∃ c1 c2, l1.find? (topReply l1) = some c1 ∧ l2.find? (topReply l2) = some c2 ∧
          o1 = c1.OwnerID ∧ o2 = c2.OwnerID) ∧
      ((∀ c ∈ l1, ¬ c.LotteryNumber > d) → o1 = p.RosterIndex ∧ o2 = p.RosterIndex) := by
  have hH1 := loop_held d p.RosterIndex l1
  have hH2 := loop_held d p.RosterIndex l2
  have hP : ((d, p.RosterIndex) :: l1.map pairOf).Perm ((d, p.RosterIndex) :: l2.map pairOf) :=
    (h.map pairOf).cons _
  have hle1 := hH2.2 _ (hP.mem_iff.1 hH1.mem)
  have hle2 := hH1.2 _ (hP.mem_iff.2 hH2.mem)
  have hn : (loop d p.RosterIndex l1).1 = (loop d p.RosterIndex l2).1 := by omega
  have hfirst : (∃ c ∈ l1, c.LotteryNumber > d) →
      ∃ c1 c2, l1.find? (topReply l1) = some c1 ∧ l2.find? (topReply l2) = some c2 ∧
        loop d p.RosterIndex l1 = pairOf c1 ∧ loop d p.RosterIndex l2 = pairOf c2 := by
    intro hex
    have hex2 : ∃ c ∈ l2, c.LotteryNumber > d := by
      obtain ⟨c, hc, hgt⟩ := hex
      exact ⟨c, h.mem_iff.1 hc, hgt⟩
    obtain ⟨c1, hf1, e1⟩ := loop_of_exceeded d p.RosterIndex l1 hex
    obtain ⟨c2, hf2, e2⟩ := loop_of_exceeded d p.RosterIndex l2 hex2
    exact ⟨c1, c2, hf1, hf2, e1, e2⟩
  have hown : (∀ c ∈ l1, ¬ c.LotteryNumber > d) →
      loop d p.RosterIndex l1 = (d, p.RosterIndex) ∧
        loop d p.RosterIndex l2 = (d, p.RosterIndex) := by
    intro hno1
    have hno2 : ∀ c ∈ l2, ¬ c.LotteryNumber > d := fun c hc => hno1 c (h.mem_iff.2 hc)
    exact ⟨loop_of_not_exceeded d _ l1 hno1, loop_of_not_exceeded d _ l2 hno2⟩
  refine ⟨(loop d p.RosterIndex l1).1, (loop d p.RosterIndex l1).2,
    (loop d p.RosterIndex l2).2, ?_, ?_, ?_, ?_, ?_⟩
  · rw [emitted_HandleReply]
  · rw [emitted_HandleReply, hn]
  · intro hag
    by_cases hex : ∃ c ∈ l1, c.LotteryNumber > d
    · obtain ⟨c1, c2, hf1, hf2, e1, e2⟩ := hfirst hex
      obtain ⟨c0, hc0, hgt0⟩ := hex
      have hc1 : c1 ∈ l1 := List.mem_of_find?_eq_some hf1
      have hc2 : c2 ∈ l1 := h.mem_iff.2 (List.mem_of_find?_eq_some hf2)
      have ht1 : topReply l1 c1 = true := List.find?_some hf1
      have hb := hH1.2 _ (List.mem_cons_of_mem _ (List.mem_map_of_mem pairOf hc0))
      rw [e1] at hb hn
      rw [e2] at hn
      simp only [pairOf] at hb hn
      have := hag c1 hc1 c2 hc2 (by omega) ht1 hn.symm
      rw [e1, e2]
      exact this.symm
    · have hno1 : ∀ c ∈ l1, ¬ c.LotteryNumber > d := fun c hc hgt => hex ⟨c, hc, hgt⟩
      obtain ⟨e1, e2⟩ := hown hno1
      rw [e1, e2]
  · intro hex
    obtain ⟨c1, c2, hf1, hf2, e1, e2⟩ := hfirst hex
    exact ⟨c1, c2, hf1, hf2, by rw [e1]; rfl, by rw [e2]; rfl⟩
  · intro hno1
    obtain ⟨e1, e2⟩ := hown hno1
    exact ⟨by rw [e1], by rw [e2]⟩

theorem C4_number_order_independent_witness :
    (∃ n o, emitted (HandleReply ⟨0, some 9, [1, 2], none, none⟩ 3
        [⟨1, ⟨5, 1⟩⟩, ⟨2, ⟨8, 2⟩⟩]).events = some (n, o) ∧
      emitted (HandleReply ⟨0, some 9, [1, 2], none, none⟩ 3
        [⟨2, ⟨8, 2⟩⟩, ⟨1, ⟨5, 1⟩⟩]).events = some (n, o)) ∧
    (∃ n o1 o2, emitted (HandleReply ⟨0, some 9, [1, 2], none, none⟩ 3
        [⟨1, ⟨7, 1⟩⟩, ⟨2, ⟨7, 2⟩⟩]).events = some (n, o1) ∧
      emitted (HandleReply ⟨0, some 9, [1, 2], none, none⟩ 3
        [⟨2, ⟨7, 2⟩⟩, ⟨1, ⟨7, 1⟩⟩]).events = some (n, o2) ∧ o1 = 1 ∧ o2 = 2) ∧
    (∃ n o1 o2, emitted (HandleReply ⟨0, some 9, [1, 2], none, none⟩ 7
        [⟨1, ⟨7, 1⟩⟩, ⟨2, ⟨5, 2⟩⟩]).events = some (n, o1) ∧
      emitted (HandleReply ⟨0, some 9, [1, 2], none, none⟩ 7
        [⟨2, ⟨5, 2⟩⟩, ⟨1, ⟨7, 1⟩⟩]).events = some (n, o2) ∧ o1 = 0 ∧ o2 = 0) := by
  refine ⟨?_, ?_, ?_⟩
  · obtain ⟨n, o1, o2, h1, h2, h3, _, _⟩ :=
      C4_number_order_independent ⟨0, some 9, [1, 2], none, none⟩ 3
        [⟨1, ⟨5, 1⟩⟩, ⟨2, ⟨8, 2⟩⟩] [⟨2, ⟨8, 2⟩⟩, ⟨1, ⟨5, 1⟩⟩] (List.Perm.swap _ _ _)
    have e : o1 = o2 := h3 (by decide)
    exact ⟨n, o1, h1, e ▸ h2⟩
  · obtain ⟨n, o1, o2, h1, h2, _, h4, _⟩ :=
      C4_number_order_independent ⟨0, some 9, [1, 2], none, none⟩ 3
        [⟨1, ⟨7, 1⟩⟩, ⟨2, ⟨7, 2⟩⟩] [⟨2, ⟨7, 2⟩⟩, ⟨1, ⟨7, 1⟩⟩] (List.Perm.swap _ _ _)
    obtain ⟨c1, c2, hf1, hf2, e1, e2⟩ := h4 ⟨⟨1, ⟨7, 1⟩⟩, by decide⟩
    have hc1 : c1 = ⟨1, ⟨7, 1⟩⟩ := Option.some.inj (hf1.symm.trans (by decide))
    have hc2 : c2 = ⟨2, ⟨7, 2⟩⟩ := Option.some.inj (hf2.symm.trans (by decide))
    exact ⟨n, o1, o2, h1, h2, by rw [e1, hc1]; rfl, by rw [e2, hc2]; rfl⟩
  · obtain ⟨n, o1, o2, h1, h2, _, _, h5⟩ :=
      C4_number_order_independent ⟨0, some 9, [1, 2], none, none⟩ 7
        [⟨1, ⟨7, 1⟩⟩, ⟨2, ⟨5, 2⟩⟩] [⟨2, ⟨5, 2⟩⟩, ⟨1, ⟨7, 1⟩⟩] (List.Perm.swap _ _ _)
    obtain ⟨e1, e2⟩ := h5 (by decide)
    exact ⟨n, o1, o2, h1, h2, e1, e2⟩

/-- C9: when every draw of a tree lies in `[0, 100)`, so do the
`LotteryNumber` of the `Reply` of every non-root node and the `Number` of
the root's ticket; and one call of `HandleReply` whose own draw and
incoming numbers lie in `[0, 100)` emits a number in `[0, 100)`. -/
theorem C9_range_preserved :
    (∀ t : Tree, (∀ n ∈ t.nodes, 0 ≤ n.1 ∧ n.1 < 100) →
      (∀ e ∈ t.edges, ∃ r, sent e.1 e.2 = some r ∧
        0 ≤ r.LotteryNumber ∧ r.LotteryNumber < 100) ∧
      ∃ tk, round t = some tk ∧ 0 ≤ tk.Number ∧ tk.Number < 100) ∧
    (∀ (p : TreeNodeInstance) (d : Int) (reply : List StructReply),
      (0 ≤ d ∧ d < 100) →
      (∀ c ∈ reply, 0 ≤ c.LotteryNumber ∧ c.LotteryNumber < 100) →
      ∃ n o, emitted (HandleReply p d reply).events = some (n, o) ∧ 0 ≤ n ∧ n < 100) := by
  refine ⟨fun t h => ⟨fun e he => ?_, ?_⟩, fun p d reply hd hr => ?_⟩
  · exact ⟨⟨e.2.best.1, e.2.best.2⟩, sent_eq e.1 e.2,
      h _ (edges_nodes t e he _ (best_held e.2).mem)⟩
  · exact ⟨⟨t.best.1, t.best.2⟩, round_eq t, h _ (best_held t).mem⟩
  · refine ⟨(loop d p.RosterIndex reply).1, (loop d p.RosterIndex reply).2,
      emitted_HandleReply p d reply, ?_⟩
    rcases List.mem_cons.1 (loop_held d p.RosterIndex reply).mem with e | hm
    · rw [e]; exact hd
    · obtain ⟨c, hc, e⟩ := List.mem_map.1 hm
      rw [← e]
      exact hr c hc

theorem C9_range_preserved_witness :
    ((∀ e ∈ (Tree.node 3 0 [.node 99 1 [], .node 0 2 []]).edges, ∃ r,
        sent e.1 e.2 = some r ∧ 0 ≤ r.LotteryNumber ∧ r.LotteryNumber < 100) ∧
      ∃ tk, round (.node 3 0 [.node 99 1 [], .node 0 2 []]) = some tk ∧
        0 ≤ tk.Number ∧ tk.Number < 100) ∧
    ∃ n o, emitted (HandleReply ⟨0, none, [1, 2], none, none⟩ 3
        [⟨1, ⟨99, 1⟩⟩, ⟨2, ⟨0, 2⟩⟩]).events = some (n, o) ∧ 0 ≤ n ∧ n < 100 :=
  ⟨C9_range_preserved.1 (.node 3 0 [.node 99 1 [], .node 0 2 []]) (by decide),
   C9_range_preserved.2 ⟨0, none, [1, 2], none, none⟩ 3 [⟨1, ⟨99, 1⟩⟩, ⟨2, ⟨0, 2⟩⟩]
     (by decide) (by decide)⟩

/-! ## Effects and returned errors of the handlers -/

/-- C5: with `own` the pair the loop of `HandleReply` ends on, the actions
of `HandleReply` after its draw are, on a non-root node, exactly one send of
`Reply` with that pair to the parent followed by `Done`, and on a root
exactly one write of `LotteryTicket` with that pair to the channel followed
by `Done`; nothing else happens, whatever the send returns. -/
theorem C5_single_output_then_done (p : TreeNodeInstance) (d : Int)
    (reply : List StructReply) :
    (p.IsRoot = false → ∃ parent, p.Parent = some parent ∧
      (HandleReply p d reply).events
        = [Event.RandIntn d,
           Event.SendTo parent
             ⟨(loop d p.RosterIndex reply).1, (loop d p.RosterIndex reply).2⟩,
           Event.Done]) ∧
    (p.IsRoot = true →
      (HandleReply p d reply).events
        = [Event.RandIntn d,
           Event.Ticket
             ⟨(loop d p.RosterIndex reply).1, (loop d p.RosterIndex reply).2⟩,
           Event.Done]) := by
  unfold HandleReply TreeNodeInstance.IsRoot
  cases hp : p.Parent with
  | none => simp
  | some parent => simp

theorem C5_single_output_then_done_witness :
    (∃ parent, (some 9 : Option Int) = some parent ∧
      (HandleReply ⟨4, some 9, [], some "closed", none⟩ 7 []).events
        = [Event.RandIntn 7, Event.SendTo parent ⟨7, 4⟩, Event.Done]) ∧
    (HandleReply ⟨0, none, [1], none, none⟩ 3 [⟨1, ⟨8, 1⟩⟩]).events
      = [Event.RandIntn 3, Event.Ticket ⟨8, 1⟩, Event.Done] :=
  ⟨(C5_single_output_then_done ⟨4, some 9, [], some "closed", none⟩ 7 []).1 rfl,
   (C5_single_output_then_done ⟨0, none, [1], none, none⟩ 3 [⟨1, ⟨8, 1⟩⟩]).2 rfl⟩

/-- C6: `HandleAnnounce` on a node with one or more children passes the
`Announce` of the message on to the children and does nothing else; on a
leaf it sends no `Announce` and its actions are those of `HandleReply` on
the empty list, so that a non-root leaf sends exactly one `Reply`, carrying
its own draw and roster index, to its parent. -/
theorem C6_announce_forward_or_reply (p : TreeNodeInstance) (d : Int)
    (msg : StructAnnounce) :
    (p.Children ≠ [] →
      (HandleAnnounce p d msg).events = [Event.SendToChildren msg.Announce]) ∧
    (p.Children = [] →
      (HandleAnnounce p d msg).events = (HandleReply p d []).events ∧
      (HandleAnnounce p d msg).events.filter Event.isSendToChildren = [] ∧
      ∀ parent, p.Parent = some parent →
        (HandleAnnounce p d msg).events.filter Event.isSendTo
          = [Event.SendTo parent ⟨d, p.RosterIndex⟩]) := by
  refine ⟨fun h => ?_, fun h => ?_⟩
  · simp [HandleAnnounce, TreeNodeInstance.IsLeaf, List.isEmpty_iff, h]
  · have hE : (HandleAnnounce p d msg).events = (HandleReply p d []).events := by
      simp [HandleAnnounce, TreeNodeInstance.IsLeaf, h]
    rw [hE]
    refine ⟨rfl, ?_, ?_⟩
    · unfold HandleReply
      cases p.Parent <;> simp [Event.isSendToChildren, List.filter]
    · intro parent hp
      simp [HandleReply, hp, loop, Event.isSendTo, List.filter]

theorem C6_announce_forward_or_reply_witness :
    (HandleAnnounce ⟨0, none, [1, 2], none, none⟩ 5 ⟨0, ⟨"go"⟩⟩).events
      = [Event.SendToChildren ⟨"go"⟩] ∧
    (HandleAnnounce ⟨4, some 9, [], none, none⟩ 7 ⟨9, ⟨"go"⟩⟩).events.filter Event.isSendTo
      = [Event.SendTo 9 ⟨7, 4⟩] :=
  ⟨(C6_announce_forward_or_reply ⟨0, none, [1, 2], none, none⟩ 5 ⟨0, ⟨"go"⟩⟩).1 (by decide),
   ((C6_announce_forward_or_reply ⟨4, some 9, [], none, none⟩ 7 ⟨9, ⟨"go"⟩⟩).2 rfl).2.2 9 rfl⟩

/-- C7: on a tree of one node, where the root is also a leaf, `Start` calls
neither `SendToChildren` nor `SendTo` and writes exactly one
`LotteryTicket`, made of the root's own draw and its own roster index. -/
theorem C7_single_node_start (p : TreeNodeInstance) (d : Int)
    (hroot : p.IsRoot = true) (hleaf : p.IsLeaf = true) :
    (Start p d).events.filter Event.isSendToChildren = [] ∧
    (Start p d).events.filter Event.isSendTo = [] ∧
    (Start p d).events.filter Event.isTicket = [Event.Ticket ⟨d, p.RosterIndex⟩] := by
  have hp : p.Parent = none := by
    simpa [TreeNodeInstance.IsRoot, Option.isNone_iff_eq_none] using hroot
  simp [Start, HandleAnnounce, hleaf, HandleReply, hp, loop, Event.isSendToChildren,
    Event.isSendTo, Event.isTicket, List.filter]

theorem C7_single_node_start_witness :
    (Start ⟨0, none, [], none, none⟩ 42).events.filter Event.isSendToChildren = [] ∧
    (Start ⟨0, none, [], none, none⟩ 42).events.filter Event.isSendTo = [] ∧
    (Start ⟨0, none, [], none, none⟩ 42).events.filter Event.isTicket
      = [Event.Ticket ⟨42, 0⟩] :=
  C7_single_node_start ⟨0, none, [], none, none⟩ 42 rfl rfl

/-- C10: `HandleAnnounce` and `Start` return `nil` on every node, on every
message and whatever the sends return; `HandleReply` returns what the send
to the parent returned on a non-root node and `nil` on a root. -/
theorem C10_returned_errors (p : TreeNodeInstance) (d : Int) (msg : StructAnnounce)
    (reply : List StructReply) :
    (HandleAnnounce p d msg).err = none ∧
    (Start p d).err = none ∧
    (p.IsRoot = false → (HandleReply p d reply).err = p.SendToResult) ∧
    (p.IsRoot = true → (HandleReply p d reply).err = none) := by
  have hA : ∀ m, (HandleAnnounce p d m).err = none := by
    intro m
    unfold HandleAnnounce
    split <;> rfl
  refine ⟨hA msg, hA _, ?_, ?_⟩
  · intro h
    cases hp : p.Parent with
    | none => simp [TreeNodeInstance.IsRoot, hp] at h
    | some parent => simp [HandleReply, hp]
  · intro h
    cases hp : p.Parent with
    | none => simp [HandleReply, hp]
    | some parent => simp [TreeNodeInstance.IsRoot, hp] at h

theorem C10_returned_errors_witness :
    (HandleAnnounce ⟨4, some 9, [], some "closed", none⟩ 7 ⟨9, ⟨"go"⟩⟩).err = none ∧
    (HandleAnnounce ⟨4, some 9, [5], none, some "closed"⟩ 7 ⟨9, ⟨"go"⟩⟩).err = none ∧
    (HandleReply ⟨4, some 9, [], some "closed", none⟩ 7 []).err = some "closed" ∧
    (HandleReply ⟨0, none, [], some "closed", none⟩ 7 []).err = none :=
  ⟨(C10_returned_errors ⟨4, some 9, [], some "closed", none⟩ 7 ⟨9, ⟨"go"⟩⟩ []).1,
   (C10_returned_errors ⟨4, some 9, [5], none, some "closed"⟩ 7 ⟨9, ⟨"go"⟩⟩ []).1,
   (C10_returned_errors ⟨4, some 9, [], some "closed", none⟩ 7 ⟨9, ⟨"go"⟩⟩ []).2.2.1 rfl,
   (C10_returned_errors ⟨0, none, [], some "closed", none⟩ 7 ⟨0, ⟨"go"⟩⟩ []).2.2.2 rfl⟩

end Lottery
